import Mathlib

/-!
Verification of the Mava coordination core against its specification.

This file shallowly embeds the parts of the Mava repository that the
specification talks about:

* `mava/systems/tf/variable_utils.py` — the `VariableClient` async
  get/set protocol (`getAsync`, `setAsync`) and the `_copy` routine
  (`copyVars`);
* `mava/systems/tf/madqn/training.py` — the MADQN trainer step,
  target-network synchronisation, importance-sampling priority update
  and the recurrent trainer's masked TD loss and bootstrap target;
* `mava/systems/tf/maddpg/builder.py` — `make_replay_tables`.

Machine tensors are modelled as lists or index functions over `ℚ`/`ℤ`,
Python dicts as association lists, fallible code as `Except`, and the
stateful trainer/client loops as explicit state-passing step functions.
-/

/-! ### VariableClient (mava/systems/tf/variable_utils.py) -/

/-- Kind of remote request submitted to the single background worker:
a `get_variables` pull or a `set_variables` push. -/
inductive ReqKind
  | getReq
  | setReq
deriving DecidableEq

/-- State of a `VariableClient`: the two per-schedule call counters and
the single shared `_future` slot (at most one pending request, of either
kind, since both `get_async` and `set_async` use `self._future`). -/
structure VCState where
  getCallCounter : ℕ
  setCallCounter : ℕ
  future : Option ReqKind
deriving DecidableEq

/-- Observable effect of one `get_async`/`set_async` call: whether a new
remote request was submitted and whether a pending request's result was
consumed (observed done and cleared). -/
structure VCEffect where
  issued : Bool
  consumed : Bool
deriving DecidableEq

/-- The client constructor initialises both counters to 0 and the future
slot to `None`. -/
def vcInit : VCState := ⟨0, 0, none⟩

/-- The counter increment at the top of `get_async`/`set_async`:
`if counter < period: counter += 1` (the counter saturates at the period). -/
def incrCounter (period c : ℕ) : ℕ := if c < period then c + 1 else c

/-- `VariableClient.get_async`: bump the counter; if the period is
reached and no request is pending, submit an asynchronous get request;
then, if the (possibly just-submitted) future is done — `done` is the
oracle for `future.done()` at the check — copy its result, clear the
future and reset the get counter. -/
def getAsync (gp : ℕ) (done : Bool) (s : VCState) : VCState × VCEffect :=
  let c := incrCounter gp s.getCallCounter
  let issue : Bool := decide (gp ≤ c) && s.future.isNone
  let fut : Option ReqKind := if issue then some ReqKind.getReq else s.future
  if fut.isSome && done then
    (⟨0, s.setCallCounter, none⟩, ⟨issue, true⟩)
  else
    (⟨c, s.setCallCounter, fut⟩, ⟨issue, false⟩)

/-- `VariableClient.set_async`: bump the counter; if the period is
reached and no request is pending, submit an asynchronous set request
and return immediately; otherwise, if the pending future is done, clear
it and reset the set counter. -/
def setAsync (sp : ℕ) (done : Bool) (s : VCState) : VCState × VCEffect :=
  let c := incrCounter sp s.setCallCounter
  if decide (sp ≤ c) && s.future.isNone then
    (⟨s.getCallCounter, c, some ReqKind.setReq⟩, ⟨true, false⟩)
  else if s.future.isSome && done then
    (⟨s.getCallCounter, 0, none⟩, ⟨false, true⟩)
  else
    (⟨s.getCallCounter, c, s.future⟩, ⟨false, false⟩)

/-- One call in a client trace: a `get_async` or `set_async` call,
together with the oracle value of `future.done()` at that call. -/
inductive VCCall
  | getCall (done : Bool)
  | setCall (done : Bool)
deriving DecidableEq

/-- Dispatch one call on the client state. -/
def vcStep (gp sp : ℕ) (s : VCState) : VCCall → VCState × VCEffect
  | VCCall.getCall d => getAsync gp d s
  | VCCall.setCall d => setAsync sp d s

/-- Run a sequence of calls, returning the final state together with the
total number of requests issued and of results consumed. -/
def vcRun (gp sp : ℕ) (s : VCState) : List VCCall → VCState × ℕ × ℕ
  | [] => (s, 0, 0)
  | c :: cs =>
    let r := vcStep gp sp s c
    let rest := vcRun gp sp r.1 cs
    (rest.1, (if r.2.issued then 1 else 0) + rest.2.1,
      (if r.2.consumed then 1 else 0) + rest.2.2)

/-- Number of outstanding (issued but not yet consumed) requests held in
the client's future slot. -/
def pendingCount (s : VCState) : ℕ := if s.future.isSome then 1 else 0

/-! ### VariableClient._copy (mava/systems/tf/variable_utils.py) -/

/-- A value stored in the variable dictionary: the four variable types
`_copy` supports (`dict` of per-agent variable lists, `np.int32`,
`np.float32`, `tuple` of variables) plus any other, unsupported type. -/
inductive VarValue
  | dictV (entries : List (String × List ℤ))
  | int32V (n : ℤ)
  | float32V (q : ℚ)
  | tupleV (vals : List ℤ)
  | otherV (tag : String)
deriving DecidableEq

/-- Association-list lookup (Python dict read `d[k]`, keys unique). -/
def lookupA {α : Type} (l : List (String × α)) (k : String) : Option α :=
  (l.find? (fun p => p.1 == k)).map (fun p => p.2)

/-- Association-list in-place overwrite of the (unique) entry for `k`. -/
def updateA {α : Type} : List (String × α) → String → α → List (String × α)
  | [], _, _ => []
  | p :: ps, k, v => if p.1 == k then (k, v) :: ps else p :: updateA ps k v

/-- Elementwise variable assignment
`for i in range(len(local)): local[i].assign(new[i])`. -/
def assignVars (localVars newVars : List ℤ) : List ℤ :=
  localVars.mapIdx fun i v => newVars.getD i v

/-- Copy one pulled value into the matching local value; mismatched
structure raises (as the Python attribute/index accesses would). -/
def copyEntry (localv newv : VarValue) : Except String VarValue :=
  match newv, localv with
  | VarValue.dictV newE, VarValue.dictV localE =>
    (newE.foldlM (fun acc (p : String × List ℤ) =>
      match lookupA acc p.1 with
      | some lv => Except.ok (updateA acc p.1 (assignVars lv p.2))
      | none => Except.error "KeyError") localE).map VarValue.dictV
  | VarValue.dictV _, _ => Except.error "TypeError"
  | VarValue.int32V n, VarValue.int32V _ => Except.ok (VarValue.int32V n)
  | VarValue.int32V _, _ => Except.error "TypeError"
  | VarValue.float32V q, VarValue.float32V _ => Except.ok (VarValue.float32V q)
  | VarValue.float32V _, _ => Except.error "TypeError"
  | VarValue.tupleV nv, VarValue.tupleV lv =>
    Except.ok (VarValue.tupleV (assignVars lv nv))
  | VarValue.tupleV _, _ => Except.error "TypeError"
  | VarValue.otherV _, _ => Except.ok localv

/-- One iteration of the `for key in new_variables.keys()` loop of
`_copy`: the unsupported-type branch only constructs (never raises) the
`NotImplementedError` and touches no local variable, so it is a no-op;
every supported branch first reads `self._variables[key]`. -/
def copyVarsStep (acc : List (String × VarValue)) (p : String × VarValue) :
    Except String (List (String × VarValue)) :=
  match p.2 with
  | VarValue.otherV _ => Except.ok acc
  | nv =>
    match lookupA acc p.1 with
    | some lv => (copyEntry lv nv).map fun v => updateA acc p.1 v
    | none => Except.error "KeyError"

/-- `VariableClient._copy`: fold the pulled snapshot over the local
variable dictionary. -/
def copyVars (vars : List (String × VarValue))
    (newVars : List (String × VarValue)) :
    Except String (List (String × VarValue)) :=
  newVars.foldlM copyVarsStep vars

/-- `VariableClient.get_and_wait`: pull a snapshot and `_copy` it over
the local variables (the pull itself is the opaque remote call). -/
def getAndWait (vars snapshot : List (String × VarValue)) :
    Except String (List (String × VarValue)) :=
  copyVars vars snapshot

/-! ### MADQN trainers (mava/systems/tf/madqn/training.py) -/

/-- Online → target hard copy of one network's variable list:
`for src, dest in zip(online_variables, target_variables): dest.assign(src)`
(`zip` truncates to the shorter list, leaving surplus `dest` entries). -/
def hardCopy (src dest : List ℤ) : List ℤ :=
  dest.mapIdx fun i v => src.getD i v

/-- The per-key loop body of `_update_target_networks`: copy each online
network's variables over the matching target network's variables. -/
def copyTargets (onlineQ targetQ : List (String × List ℤ)) :
    List (String × List ℤ) :=
  onlineQ.foldl (fun acc p =>
    match lookupA acc p.1 with
    | some tv => updateA acc p.1 (hardCopy p.2 tv)
    | none => acc) targetQ

/-- Mutable state of a (feedforward) `MADQNTrainer`: the `_num_steps`
counter and the online and target Q-network variables per network key. -/
structure DQNState where
  numSteps : ℕ
  onlineQ : List (String × List ℤ)
  targetQ : List (String × List ℤ)
deriving DecidableEq

/-- `MADQNTrainer._update_target_networks`: hard-copy online → target
when `num_steps % target_update_period == 0`, then increment
`_num_steps` (the mixing-network block is commented out in this class). -/
def madqnUpdateTargetNetworks (period : ℕ) (s : DQNState) : DQNState :=
  { numSteps := s.numSteps + 1
    onlineQ := s.onlineQ
    targetQ :=
      if s.numSteps % period = 0 then copyTargets s.onlineQ s.targetQ
      else s.targetQ }

/-- `MADQNTrainer._step` as it acts on network variables: first the
target-sync check, then the forward/backward pass, which only applies
gradients to the online Q-network variables (abstracted as `g`). -/
def madqnTrainerStep (period : ℕ)
    (g : List (String × List ℤ) → List (String × List ℤ))
    (s : DQNState) : DQNState :=
  let s1 := madqnUpdateTargetNetworks period s
  { s1 with onlineQ := g s1.onlineQ }

/-- A mixing network pair held by `MADQNRecurrentTrainer`: whether the
online mixing network is a `MonotonicMixingNetwork`, and the online and
target mixing-network variables. -/
structure MixPair where
  isMonotonic : Bool
  onlineM : List ℤ
  targetM : List ℤ
deriving DecidableEq

/-- Mutable state of a `MADQNRecurrentTrainer`: step counter, per-key
online/target Q-network variables, the optional mixing-network pair, and
the `_double_q_learning` flag. -/
structure RecDQNState where
  numSteps : ℕ
  onlineQ : List (String × List ℤ)
  targetQ : List (String × List ℤ)
  mixing : Option MixPair
  doubleQLearning : Bool
deriving DecidableEq

/-- The fragment of `MADQNRecurrentTrainer.__init__` that the claims
depend on: `_num_steps = 0` and `_double_q_learning = False`
(training.py line 599); no other method ever writes the flag. -/
def recTrainerInit (onlineQ targetQ : List (String × List ℤ))
    (mixing : Option MixPair) : RecDQNState :=
  { numSteps := 0
    onlineQ := onlineQ
    targetQ := targetQ
    mixing := mixing
    doubleQLearning := false }

/-- `MADQNRecurrentTrainer._update_target_networks`: the Q-network
copy is guarded by `num_steps % target_update_period == 0`, but when a
`MonotonicMixingNetwork` is present the online mixing-network variables
are copied onto the target mixing-network variables on *every* call,
outside that guard; finally `_num_steps` is incremented. -/
def recUpdateTargetNetworks (period : ℕ) (s : RecDQNState) : RecDQNState :=
  { s with
    targetQ :=
      if s.numSteps % period = 0 then copyTargets s.onlineQ s.targetQ
      else s.targetQ
    mixing := s.mixing.map fun m =>
      if m.isMonotonic then { m with targetM := hardCopy m.onlineM m.targetM }
      else m
    numSteps := s.numSteps + 1 }

/-- `MADQNRecurrentTrainer._step` as it acts on network variables:
target sync, then the backward pass, which applies gradients to online
Q-network variables (`g`) and — only when the mixing network is
monotonic — to the online mixing-network variables (`gm`). -/
def recTrainerStep (period : ℕ)
    (g : List (String × List ℤ) → List (String × List ℤ))
    (gm : List ℤ → List ℤ) (s : RecDQNState) : RecDQNState :=
  let s1 := recUpdateTargetNetworks period s
  { s1 with
    onlineQ := g s1.onlineQ
    mixing := s1.mixing.map fun m =>
      if m.isMonotonic then { m with onlineM := gm m.onlineM } else m }

/-- Run a sequence of recurrent trainer steps, each with its own
gradient updates. -/
def recTrainerRun (period : ℕ)
    (gs : List ((List (String × List ℤ) → List (String × List ℤ)) ×
      (List ℤ → List ℤ)))
    (s : RecDQNState) : RecDQNState :=
  gs.foldl (fun st g => recTrainerStep period g.1 g.2 st) s

/-! ### MADQN trainer construction and priority effects -/

/-- The kind of object passed as `replay_client`: an actual
`reverb.Client`, a `reverb.TFClient` (a distinct class, which fails the
`isinstance(_, reverb.Client)` assert), or anything else. -/
inductive ReplayHandleKind
  | reverbClient
  | reverbTFClient
  | otherHandle
deriving DecidableEq

/-- The two `MADQNTrainer` configuration fields governing the priority
update: `importance_sampling_exponent` and the optional `replay_client`. -/
structure MADQNTrainerCfg where
  importanceSamplingExponent : Option ℚ
  replayClient : Option ReplayHandleKind
deriving DecidableEq

/-- The guard in `MADQNTrainer.__init__` (training.py lines 155-156):
if `importance_sampling_exponent is not None` then
`assert isinstance(self._replay_client, reverb.Client)`; a failed assert
aborts construction before any training step exists. -/
def madqnTrainerInit (ise : Option ℚ) (rc : Option ReplayHandleKind) :
    Except String MADQNTrainerCfg :=
  if ise.isSome = true ∧ rc ≠ some ReplayHandleKind.reverbClient then
    Except.error "AssertionError: replay_client is not a reverb.Client"
  else
    Except.ok ⟨ise, rc⟩

/-- Externally visible replay-store operations of one trainer step. -/
inductive TrainerEffect
  | sampleBatch
  | mutatePriorities (updates : List (ℕ × ℚ))
deriving DecidableEq

/-- `MADQNTrainer._update_sample_priorities`: call
`replay_client.mutate_priorities` only when both
`importance_sampling_exponent` and `replay_client` are not `None`. -/
def updateSamplePrioritiesEffects (cfg : MADQNTrainerCfg)
    (updates : List (ℕ × ℚ)) : List TrainerEffect :=
  if cfg.importanceSamplingExponent.isSome && cfg.replayClient.isSome then
    [TrainerEffect.mutatePriorities updates]
  else []

/-- Replay-store operations of one `MADQNTrainer._step`: the batch pull
from the dataset iterator, then — only when importance sampling is
enabled — the priority push-back. -/
def madqnStepEffects (cfg : MADQNTrainerCfg) (updates : List (ℕ × ℚ)) :
    List TrainerEffect :=
  TrainerEffect.sampleBatch ::
    (if cfg.importanceSamplingExponent.isSome then
      updateSamplePrioritiesEffects cfg updates
    else [])

/-- Replay-store operations of a sequence of trainer steps. -/
def madqnRunEffects (cfg : MADQNTrainerCfg) (us : List (List (ℕ × ℚ))) :
    List TrainerEffect :=
  us.foldr (fun u acc => madqnStepEffects cfg u ++ acc) []

/-! ### MADQNTrainer._forward priority computation -/

/-- `tf.reduce_max` over a batch vector (batches are nonempty). -/
def reduceMaxQ : List ℚ → ℚ
  | [] => 0
  | x :: xs => xs.foldl max x

/-- `tf.reduce_mean` over a batch vector. -/
def reduceMeanQ (l : List ℚ) : ℚ := l.sum / (l.length : ℚ)

/-- One agent's contribution to the new priorities:
`max_priority_weight * max(|td|) + (1 - max_priority_weight) * mean(|td|)`
with the max and mean taken across the batch axis. -/
def agentPriority (w : ℚ) (errs : List ℚ) : ℚ :=
  w * reduceMaxQ (errs.map (fun e => |e|)) +
    (1 - w) * reduceMeanQ (errs.map (fun e => |e|))

/-- The priority computation of `MADQNTrainer._forward`: start from
`np.zeros(len(keys))`, add each agent's (batch-constant) priority term,
and finally divide by the number of agents. `tds` holds each agent's
per-batch-element TD errors. -/
def forwardSamplePriorities (w : ℚ) (keys : List ℕ) (tds : List (List ℚ)) :
    List ℚ :=
  let acc := tds.foldl (fun acc errs => acc.map (· + agentPriority w errs))
    (List.replicate keys.length (0 : ℚ))
  acc.map (· / (tds.length : ℚ))

/-- The update dictionary passed to `mutate_priorities`:
`dict(zip(keys, priorities))`. -/
def priorityUpdates (w : ℚ) (keys : List ℕ) (tds : List (List ℚ)) :
    List (ℕ × ℚ) :=
  keys.zip (forwardSamplePriorities w keys tds)

/-! ### MADQNRecurrentTrainer._forward: bootstrap target and masked loss -/

/-- Legal-action masking of a Q-value row:
`tf.where(legal_actions, q, -9999999)`. -/
def maskLegalActions (legal : List Bool) (qs : List ℚ) : List ℚ :=
  (legal.zip qs).map fun p => if p.1 then p.2 else -9999999

/-- `tf.argmax` over the action axis: index of the first maximum. -/
def argmaxIdx (l : List ℚ) : ℕ :=
  (List.range l.length).foldl
    (fun best i => if l.getD best 0 < l.getD i 0 then i else best) 0

/-- The bootstrap value for one (timestep, batch element) in
`MADQNRecurrentTrainer._forward`: legal-action-mask the target Q-values;
with double Q-learning, index them by the argmax of the (masked) online
Q-values, otherwise take their maximum. -/
def bootstrapTarget (doubleQ : Bool) (qVals targetQVals : List ℚ)
    (legal : List Bool) : ℚ :=
  let maskedTarget := maskLegalActions legal targetQVals
  if doubleQ then
    let selector := (legal.zip qVals).map fun p => if p.1 then p.2 else -99999999
    maskedTarget.getD (argmaxIdx selector) 0
  else
    reduceMaxQ maskedTarget

/-- The bootstrap value as the trainer computes it, reading the
`_double_q_learning` flag from the trainer state. -/
def recForwardBootstrap (s : RecDQNState) (qVals targetQVals : List ℚ)
    (legal : List Bool) : ℚ :=
  bootstrapTarget s.doubleQLearning qVals targetQVals legal

/-- The TD target of the recurrent forward pass at time `t`:
`rewards[:-1] + discount * env_discounts[:-1] * target_q_max[1:]`,
elementwise at batch element `b` and agent slot `a`. -/
def tdTarget (γ : ℚ) (reward envDisc targMax : ℕ → ℕ → ℕ → ℚ)
    (t b a : ℕ) : ℚ :=
  reward t b a + γ * envDisc t b a * targMax (t + 1) b a

/-- The TD error of the recurrent forward pass:
`q_values_chosen_actions[:-1] - stop_gradient(targets)`. -/
def tdError (γ : ℚ) (qChosen reward envDisc targMax : ℕ → ℕ → ℕ → ℚ)
    (t b a : ℕ) : ℚ :=
  qChosen t b a - tdTarget γ reward envDisc targMax t b a

/-- `tf.reduce_sum(zero_padding_mask)` over the full `[T, B, 1]` mask. -/
def maskSum (T B : ℕ) (mask : ℕ → ℕ → ℚ) : ℚ :=
  ∑ t ∈ Finset.range T, ∑ b ∈ Finset.range B, mask t b

/-- The scalar loss of `MADQNRecurrentTrainer._forward`:
`reduce_sum((td_error * zero_padding_mask[:-1]) ** 2) / reduce_sum(zero_padding_mask)`.
The TD error has `T - 1` timesteps; the `[T, B, 1]` mask broadcasts over
the agent axis in the numerator and is summed in full in the
denominator. -/
def recurrentLoss (T B A : ℕ) (γ : ℚ)
    (qChosen reward envDisc targMax : ℕ → ℕ → ℕ → ℚ)
    (mask : ℕ → ℕ → ℚ) : ℚ :=
  (∑ t ∈ Finset.range (T - 1), ∑ b ∈ Finset.range B, ∑ a ∈ Finset.range A,
      (tdError γ qChosen reward envDisc targMax t b a * mask t b) ^ 2)
    / maskSum T B mask

/-! ### MADDPGBuilder.make_replay_tables (mava/systems/tf/maddpg/builder.py) -/

/-- The sampler passed to `reverb.Table`. -/
inductive SamplerKind
  | uniform
  | prioritized
deriving DecidableEq

/-- The remover passed to `reverb.Table`. -/
inductive RemoverKind
  | fifo
  | lifo
deriving DecidableEq

/-- The rate limiter passed to `reverb.Table`: `reverb.rate_limiters.MinSize`
or `reverb.rate_limiters.SampleToInsertRatio` with its three arguments. -/
inductive RateLimiterSpec
  | minSize (minSizeToSample : ℕ)
  | sampleToInsertRatio (minSizeToSample : ℕ) (samplesPerInsert : ℚ)
      (errorBuffer : ℚ)
deriving DecidableEq

/-- The `MADDPGConfig` fields consumed by `make_replay_tables`. -/
structure MADDPGConfig where
  minReplaySize : ℕ
  maxReplaySize : ℕ
  samplesPerInsert : Option ℚ
deriving DecidableEq

/-- The arguments `make_replay_tables` passes to `reverb.Table`. -/
structure ReplayTableSpec where
  sampler : SamplerKind
  remover : RemoverKind
  maxSize : ℕ
  rateLimiter : RateLimiterSpec
deriving DecidableEq

/-- `MADDPGBuilder.make_replay_tables`: with `samples_per_insert = None`
use a `MinSize(min_replay_size)` limiter; otherwise use
`SampleToInsertRatio` with a 10% tolerance error buffer
`min_replay_size * (0.1 * samples_per_insert)`; the table itself uses a
uniform sampler, a FIFO remover and `max_size = max_replay_size`. -/
def makeReplayTables (cfg : MADDPGConfig) : ReplayTableSpec :=
  let limiter :=
    match cfg.samplesPerInsert with
    | none => RateLimiterSpec.minSize cfg.minReplaySize
    | some spi =>
      let tolerance := (1 / 10 : ℚ) * spi
      let errorBuffer := (cfg.minReplaySize : ℚ) * tolerance
      RateLimiterSpec.sampleToInsertRatio cfg.minReplaySize spi errorBuffer
  { sampler := SamplerKind.uniform
    remover := RemoverKind.fifo
    maxSize := cfg.maxReplaySize
    rateLimiter := limiter }

/-- Modelled from the spec: reverb's rate limiters are an external
service, specified in §4.1/§8 — `MinSize` admits a sample exactly when
`min_size` records are present; `SampleToInsertRatio` additionally
requires the sample/insert balance to stay within `error_buffer` of the
prescribed ratio. `size` is the number of records present, `ins`/`smp`
the totals of inserts and samples so far. -/
def canSample : RateLimiterSpec → ℕ → ℕ → ℕ → Bool
  | RateLimiterSpec.minSize n, size, _ins, _smp => decide (n ≤ size)
  | RateLimiterSpec.sampleToInsertRatio n spi err, size, ins, smp =>
    decide (n ≤ size) && decide (|((smp : ℚ) + 1) - (ins : ℚ) * spi| ≤ err)

/-- Modelled from the spec: one insert into a reverb table with a FIFO
remover — when the table is at `max_size`, the oldest record is evicted
to make room (§4.1, §5). -/
def tableInsert (maxSize : ℕ) (q : List ℕ) (r : ℕ) : List ℕ :=
  if q.length < maxSize then q ++ [r] else q.drop 1 ++ [r]

/-- Insert a sequence of records into an initially empty table. -/
def insertAll (maxSize : ℕ) (rs : List ℕ) : List ℕ :=
  rs.foldl (tableInsert maxSize) []

/-! ### Witness inputs -/

/-- A recurrent trainer state with a monotonic mixing network, target
mixing variables out of sync with the online ones, and a step counter
not on the sync period. -/
def c1State : RecDQNState :=
  { numSteps := 1
    onlineQ := [("net0", [1])]
    targetQ := [("net0", [0])]
    mixing := some { isMonotonic := true, onlineM := [5], targetM := [0] }
    doubleQLearning := false }

/-- Concrete chosen-action Q-values for the loss witness. -/
def exQC : ℕ → ℕ → ℕ → ℚ := fun _ _ _ => 2

/-- Concrete rewards for the loss witness. -/
def exR : ℕ → ℕ → ℕ → ℚ := fun _ _ _ => 1

/-- Concrete environment discounts for the loss witness. -/
def exD : ℕ → ℕ → ℕ → ℚ := fun _ _ _ => 1

/-- Concrete bootstrap targets for the loss witness. -/
def exTM : ℕ → ℕ → ℕ → ℚ := fun _ _ _ => 3

/-- A concrete `filled` mask with a padded (zero) tail timestep. -/
def exMaskC3 : ℕ → ℕ → ℚ := fun t _ => if t = 0 then 1 else 0

/-! ### Helper lemmas -/

lemma hardCopy_eq_src : ∀ (tv ov : List ℤ), tv.length = ov.length →
    hardCopy ov tv = ov
  | [], [], _ => rfl
  | [], _ :: _, h => by simp at h
  | _ :: _, [], h => by simp at h
  | v :: vs, o :: os, h => by
    have hlen : vs.length = os.length := by
      simpa using h
    have ih := hardCopy_eq_src vs os hlen
    simp only [hardCopy, List.mapIdx_cons, List.getD_cons_zero] at ih ⊢
    have h2 : List.mapIdx (fun i v => (o :: os).getD (i + 1) v) vs
        = List.mapIdx (fun i v => os.getD i v) vs := by
      simp [List.getD_cons_succ]
    rw [h2, ih]

lemma recTrainerStep_flag (period : ℕ) (g) (gm) (s : RecDQNState) :
    (recTrainerStep period g gm s).doubleQLearning = s.doubleQLearning := rfl

lemma recTrainerRun_flag (period : ℕ) (gs) : ∀ s : RecDQNState,
    (recTrainerRun period gs s).doubleQLearning = s.doubleQLearning := by
  induction gs with
  | nil => intro s; rfl
  | cons g gs ih =>
    intro s
    simpa [recTrainerRun] using ih (recTrainerStep period g.1 g.2 s)

lemma vcStep_balance (gp sp : ℕ) (s : VCState) (c : VCCall) :
    (if (vcStep gp sp s c).2.issued then 1 else 0) + pendingCount s =
      (if (vcStep gp sp s c).2.consumed then 1 else 0) +
        pendingCount (vcStep gp sp s c).1 := by
  obtain ⟨gc, sc, fut⟩ := s
  cases c with
  | getCall d =>
    cases fut <;> cases d <;>
      by_cases hp : gp ≤ incrCounter gp gc <;>
      simp [vcStep, getAsync, pendingCount, hp]
  | setCall d =>
    cases fut <;> cases d <;>
      by_cases hp : sp ≤ incrCounter sp sc <;>
      simp [vcStep, setAsync, pendingCount, hp]

lemma vcRun_balance (gp sp : ℕ) (cs : List VCCall) : ∀ s : VCState,
    (vcRun gp sp s cs).2.1 + pendingCount s =
      (vcRun gp sp s cs).2.2 + pendingCount (vcRun gp sp s cs).1 := by
  induction cs with
  | nil => intro s; simp [vcRun]
  | cons c cs ih =>
    intro s
    have hstep := vcStep_balance gp sp s c
    have hrest := ih (vcStep gp sp s c).1
    simp only [vcRun]
    omega

lemma foldl_map_add_replicate (w : ℚ) (tds : List (List ℚ)) (n : ℕ) :
    ∀ c : ℚ,
    tds.foldl (fun acc errs => acc.map (· + agentPriority w errs))
        (List.replicate n c)
      = List.replicate n (c + (tds.map (agentPriority w)).sum) := by
  induction tds with
  | nil => intro c; simp
  | cons e es ih =>
    intro c
    simp only [List.foldl_cons, List.map_replicate, List.map_cons,
      List.sum_cons]
    rw [ih (c + agentPriority w e)]
    congr 1
    ring

lemma zip_replicate_self (v : ℚ) : ∀ keys : List ℕ,
    keys.zip (List.replicate keys.length v) = keys.map fun k => (k, v) := by
  intro keys
  induction keys with
  | nil => rfl
  | cons k ks ih => simp [List.replicate_succ, ih]

lemma tableInsert_length_le (m : ℕ) (hm : 0 < m) (q : List ℕ) (r : ℕ)
    (hq : q.length ≤ m) : (tableInsert m q r).length ≤ m := by
  unfold tableInsert
  split
  · next h => simpa using h
  · next h =>
    push_neg at h
    have hlen : q.length = m := le_antisymm hq h
    simp [List.length_drop, hlen]
    omega

lemma insertAll_length_le (m : ℕ) (hm : 0 < m) (rs : List ℕ) :
    ∀ q : List ℕ, q.length ≤ m → (rs.foldl (tableInsert m) q).length ≤ m := by
  induction rs with
  | nil => intro q hq; simpa using hq
  | cons r rs ih =>
    intro q hq
    exact ih (tableInsert m q r) (tableInsert_length_le m hm q r hq)

lemma copyVars_skip_other (k : String) (tag : String) :
    ∀ (pre : List (String × VarValue)) (suf : List (String × VarValue))
      (vars : List (String × VarValue)),
    copyVars vars (pre ++ (k, VarValue.otherV tag) :: suf) =
      copyVars vars (pre ++ suf) := by
  intro pre
  induction pre with
  | nil =>
    intro suf vars
    simp only [List.nil_append, copyVars, List.foldlM_cons]
    rfl
  | cons p ps ih =>
    intro suf vars
    simp only [List.cons_append, copyVars, List.foldlM_cons]
    cases h : copyVarsStep vars p with
    | error e => rfl
    | ok v => exact ih suf v

/-! ### Claim theorems -/

/-- C1 (amended): at every trainer step of `MADQNTrainer` and
`MADQNRecurrentTrainer`, the online Q-network variables are hard-copied
onto the target Q-network variables exactly when
`num_steps % target_update_period == 0` at the start of the step and the
target Q-network variables are otherwise unchanged; the step counter
advances by one; but in `MADQNRecurrentTrainer`, when a monotonic mixing
network is present its target variables are hard-copied from the online
mixing network at *every* step, regardless of the counter. The final
conjunct shows the copy really overwrites the whole target variable
list. -/
theorem target_network_sync_characterisation (period : ℕ)
    (g : List (String × List ℤ) → List (String × List ℤ))
    (gm : List ℤ → List ℤ) (s : DQNState) (sr : RecDQNState)
    (ov tv : List ℤ) (hlen : tv.length = ov.length) :
    ((madqnTrainerStep period g s).numSteps = s.numSteps + 1) ∧
    ((madqnTrainerStep period g s).targetQ =
      if s.numSteps % period = 0 then copyTargets s.onlineQ s.targetQ
      else s.targetQ) ∧
    ((recTrainerStep period g gm sr).numSteps = sr.numSteps + 1) ∧
    ((recTrainerStep period g gm sr).targetQ =
      if sr.numSteps % period = 0 then copyTargets sr.onlineQ sr.targetQ
      else sr.targetQ) ∧
    ((recTrainerStep period g gm sr).mixing.map MixPair.targetM =
      sr.mixing.map fun m =>
        if m.isMonotonic then hardCopy m.onlineM m.targetM else m.targetM) ∧
    hardCopy ov tv = ov := by
  refine ⟨rfl, rfl, rfl, rfl, ?_, hardCopy_eq_src tv ov hlen⟩
  cases hm : sr.mixing with
  | none => simp [recTrainerStep, recUpdateTargetNetworks, hm]
  | some m =>
    obtain ⟨mono, om, tm⟩ := m
    cases mono <;> simp [recTrainerStep, recUpdateTargetNetworks, hm]

/-- C1 counterexample: a recurrent trainer step taken at
`num_steps = 1` with `target_update_period = 2` (so the target-sync
condition is false) leaves the target Q-network variables unchanged but
still rewrites the target mixing-network variables, refuting the claim
that at such steps all target network parameters are unchanged. -/
theorem target_network_sync_counterexample :
    c1State.numSteps % 2 ≠ 0 ∧
    (recTrainerStep 2 id id c1State).targetQ = c1State.targetQ ∧
    (recTrainerStep 2 id id c1State).mixing.map MixPair.targetM ≠
      c1State.mixing.map MixPair.targetM := by
  refine ⟨by decide, rfl, by decide⟩

/-- C2: the `VariableClient` async protocol keeps at most one request
outstanding: over any trace from the initial state, the number of issued
requests equals the number of consumed results plus the (0 or 1) pending
requests; each call issues a request exactly when no future is pending
and the (just-incremented) per-schedule counter has reached its period;
a result is consumed only when a pending (or, for `get_async`,
just-issued) future is done; and the counter is reset to zero exactly at
a consuming call, otherwise it keeps its incremented value. -/
theorem variable_client_at_most_one_outstanding (gp sp : ℕ) (d : Bool)
    (s : VCState) (cs : List VCCall) :
    ((vcRun gp sp vcInit cs).2.1 =
      (vcRun gp sp vcInit cs).2.2 + pendingCount (vcRun gp sp vcInit cs).1) ∧
    (pendingCount (vcRun gp sp vcInit cs).1 ≤ 1) ∧
    ((getAsync gp d s).2.issued =
      (decide (gp ≤ incrCounter gp s.getCallCounter) && s.future.isNone)) ∧
    ((setAsync sp d s).2.issued =
      (decide (sp ≤ incrCounter sp s.setCallCounter) && s.future.isNone)) ∧
    ((getAsync gp d s).2.consumed =
      (((decide (gp ≤ incrCounter gp s.getCallCounter) && s.future.isNone) ||
        s.future.isSome) && d)) ∧
    ((setAsync sp d s).2.consumed = (s.future.isSome && d)) ∧
    ((getAsync gp d s).1.getCallCounter =
      if (getAsync gp d s).2.consumed then 0
      else incrCounter gp s.getCallCounter) ∧
    ((setAsync sp d s).1.setCallCounter =
      if (setAsync sp d s).2.consumed then 0
      else incrCounter sp s.setCallCounter) := by
  obtain ⟨gc, sc, fut⟩ := s
  refine ⟨?_, ?_, ?_, ?_, ?_, ?_, ?_, ?_⟩
  · have h := vcRun_balance gp sp cs vcInit
    simpa [pendingCount, vcInit] using h
  · unfold pendingCount
    split <;> simp
  · cases fut <;> cases d <;>
      by_cases hp : gp ≤ incrCounter gp gc <;> simp [getAsync, hp]
  · cases fut <;> cases d <;>
      by_cases hp : sp ≤ incrCounter sp sc <;> simp [setAsync, hp]
  · cases fut <;> cases d <;>
      by_cases hp : gp ≤ incrCounter gp gc <;> simp [getAsync, hp]
  · cases fut <;> cases d <;>
      by_cases hp : sp ≤ incrCounter sp sc <;> simp [setAsync, hp]
  · cases fut <;> cases d <;>
      by_cases hp : gp ≤ incrCounter gp gc <;> simp [getAsync, hp]
  · cases fut <;> cases d <;>
      by_cases hp : sp ≤ incrCounter sp sc <;> simp [setAsync, hp]

/-- C4: with importance sampling enabled, the update pushed to
`mutate_priorities` keys every sampled record's original key to one and
the same new priority: the per-agent convex combination
`w * max_batch |td| + (1 - w) * mean_batch |td|` summed over the agents
and divided by the number of agents. -/
theorem madqn_priority_convex_combination (w : ℚ) (keys : List ℕ)
    (tds : List (List ℚ)) :
    priorityUpdates w keys tds =
      keys.map fun k =>
        (k, (tds.map (agentPriority w)).sum / (tds.length : ℚ)) := by
  unfold priorityUpdates forwardSamplePriorities
  rw [foldl_map_add_replicate]
  simp only [List.map_replicate, zero_add]
  exact zip_replicate_self _ keys

/-- C6: with `importance_sampling_exponent = None`, any sequence of
`MADQNTrainer` steps produces only batch pulls and never invokes
`mutate_priorities` on the replay store. -/
theorem madqn_no_mutate_without_importance_sampling (cfg : MADQNTrainerCfg)
    (us : List (List (ℕ × ℚ))) (h : cfg.importanceSamplingExponent = none) :
    madqnRunEffects cfg us = List.replicate us.length TrainerEffect.sampleBatch ∧
    ∀ upd, TrainerEffect.mutatePriorities upd ∉ madqnRunEffects cfg us := by
  have hstep : ∀ u, madqnStepEffects cfg u = [TrainerEffect.sampleBatch] := by
    intro u
    simp [madqnStepEffects, h]
  have hrun : madqnRunEffects cfg us =
      List.replicate us.length TrainerEffect.sampleBatch := by
    induction us with
    | nil => rfl
    | cons u us ih =>
      simp only [madqnRunEffects, List.foldr_cons] at ih ⊢
      simp [hstep u, ih, List.replicate_succ]
  refine ⟨hrun, ?_⟩
  intro upd hmem
  rw [hrun] at hmem
  exact TrainerEffect.noConfusion (List.eq_of_mem_replicate hmem)

/-- C7: `MADQNTrainer` construction returns an error exactly when
importance sampling is requested and the `replay_client` argument is not
a `reverb.Client`; and whenever construction succeeds, either importance
sampling was off or a valid replay client was supplied — the missing
handle is never silently ignored, and the failure precedes any training
step since no trainer value exists. -/
theorem madqn_init_asserts_replay_client (ise : Option ℚ)
    (rc : Option ReplayHandleKind) :
    ((∃ msg, madqnTrainerInit ise rc = Except.error msg) ↔
      (ise.isSome = true ∧ rc ≠ some ReplayHandleKind.reverbClient)) ∧
    (∀ t, madqnTrainerInit ise rc = Except.ok t →
      ise.isSome = false ∨ rc = some ReplayHandleKind.reverbClient) := by
  unfold madqnTrainerInit
  split
  · next hcond =>
    refine ⟨⟨fun _ => hcond, fun _ => ⟨_, rfl⟩⟩, ?_⟩
    intro t ht
    cases ht
  · next hcond =>
    constructor
    · constructor
      · rintro ⟨msg, hm⟩
        cases hm
      · intro hc
        exact absurd hc hcond
    · intro t _
      by_cases hi : ise.isSome = true
      · right
        by_contra hrc
        exact hcond ⟨hi, hrc⟩
      · left
        simpa using hi

/-- C7 witness: with importance sampling requested and `replay_client = None`,
construction fails with an error. -/
theorem madqn_init_asserts_replay_client_witness :
    ((∃ msg, madqnTrainerInit (some 1) none = Except.error msg) ↔
      ((some (1 : ℚ)).isSome = true ∧
        (none : Option ReplayHandleKind) ≠ some ReplayHandleKind.reverbClient)) ∧
    (∀ t, madqnTrainerInit (some 1) none = Except.ok t →
      (some (1 : ℚ)).isSome = false ∨
        (none : Option ReplayHandleKind) = some ReplayHandleKind.reverbClient) :=
  madqn_init_asserts_replay_client (some 1) none

/-- C8: the recurrent trainer's double-Q branch is unreachable: the flag
is `false` at construction, is preserved by every trainer step, and with
the flag `false` the bootstrap target is the maximum over the
legal-action-masked target Q-values. -/
theorem rec_double_q_branch_unreachable
    (onl tq : List (String × List ℤ)) (mx : Option MixPair) (period : ℕ)
    (gs : List ((List (String × List ℤ) → List (String × List ℤ)) ×
      (List ℤ → List ℤ)))
    (q tqv : List ℚ) (legal : List Bool) :
    (recTrainerInit onl tq mx).doubleQLearning = false ∧
    (recTrainerRun period gs (recTrainerInit onl tq mx)).doubleQLearning = false ∧
    recForwardBootstrap (recTrainerRun period gs (recTrainerInit onl tq mx))
        q tqv legal
      = reduceMaxQ (maskLegalActions legal tqv) := by
  have hflag := recTrainerRun_flag period gs (recTrainerInit onl tq mx)
  refine ⟨rfl, ?_, ?_⟩
  · rw [hflag]
    rfl
  · unfold recForwardBootstrap
    rw [hflag]
    rfl

/-- C3: the recurrent trainer's scalar loss is the sum, over the filled
(timestep, batch) pairs, of the squared TD errors (summed over the agent
axis), divided by the number of filled mask entries; entries whose mask
is zero appear in neither the filtered numerator nor the denominator
count. -/
theorem rec_loss_masked (T B A : ℕ) (γ : ℚ)
    (qC r d tm : ℕ → ℕ → ℕ → ℚ) (mask : ℕ → ℕ → ℚ)
    (h01 : ∀ t b, mask t b = 0 ∨ mask t b = 1) :
    recurrentLoss T B A γ qC r d tm mask =
      (∑ p ∈ (Finset.range (T - 1) ×ˢ Finset.range B).filter
          (fun p => mask p.1 p.2 ≠ 0),
        ∑ a ∈ Finset.range A, tdError γ qC r d tm p.1 p.2 a ^ 2)
      / (((Finset.range T ×ˢ Finset.range B).filter
          (fun p => mask p.1 p.2 ≠ 0)).card : ℚ) := by
  have hden : maskSum T B mask =
      (((Finset.range T ×ˢ Finset.range B).filter
        (fun p => mask p.1 p.2 ≠ 0)).card : ℚ) := by
    unfold maskSum
    calc ∑ t ∈ Finset.range T, ∑ b ∈ Finset.range B, mask t b
        = ∑ p ∈ Finset.range T ×ˢ Finset.range B, mask p.1 p.2 :=
          (Finset.sum_product' _ _ _).symm
      _ = ∑ p ∈ (Finset.range T ×ˢ Finset.range B).filter
            (fun p => mask p.1 p.2 ≠ 0), mask p.1 p.2 :=
          (Finset.sum_filter_ne_zero _).symm
      _ = ∑ _p ∈ (Finset.range T ×ˢ Finset.range B).filter
            (fun p => mask p.1 p.2 ≠ 0), (1 : ℚ) := by
          refine Finset.sum_congr rfl fun p hp => ?_
          rcases h01 p.1 p.2 with h | h
          · exact absurd h (Finset.mem_filter.mp hp).2
          · exact h
      _ = _ := by simp
  have hnum : (∑ t ∈ Finset.range (T - 1), ∑ b ∈ Finset.range B,
        ∑ a ∈ Finset.range A, (tdError γ qC r d tm t b a * mask t b) ^ 2)
      = ∑ p ∈ (Finset.range (T - 1) ×ˢ Finset.range B).filter
          (fun p => mask p.1 p.2 ≠ 0),
        ∑ a ∈ Finset.range A, tdError γ qC r d tm p.1 p.2 a ^ 2 := by
    calc ∑ t ∈ Finset.range (T - 1), ∑ b ∈ Finset.range B,
          ∑ a ∈ Finset.range A, (tdError γ qC r d tm t b a * mask t b) ^ 2
        = ∑ p ∈ Finset.range (T - 1) ×ˢ Finset.range B,
            ∑ a ∈ Finset.range A,
              (tdError γ qC r d tm p.1 p.2 a * mask p.1 p.2) ^ 2 :=
          (Finset.sum_product' _ _ _).symm
      _ = ∑ p ∈ (Finset.range (T - 1) ×ˢ Finset.range B).filter
            (fun p => mask p.1 p.2 ≠ 0),
            ∑ a ∈ Finset.range A,
              (tdError γ qC r d tm p.1 p.2 a * mask p.1 p.2) ^ 2 := by
          refine (Finset.sum_filter_of_ne fun p _ hne => ?_).symm
          intro h0
          apply hne
          simp [h0]
      _ = _ := by
          refine Finset.sum_congr rfl fun p hp => ?_
          refine Finset.sum_congr rfl fun a _ => ?_
          rcases h01 p.1 p.2 with h | h
          · exact absurd h (Finset.mem_filter.mp hp).2
          · rw [h, mul_one]
  unfold recurrentLoss
  rw [hden, hnum]

/-- C3 witness: the masked-loss characterisation applied to a concrete
two-timestep batch whose second timestep is padding. -/
theorem rec_loss_masked_witness :
    (∀ t b, exMaskC3 t b = 0 ∨ exMaskC3 t b = 1) ∧
    recurrentLoss 2 1 1 1 exQC exR exD exTM exMaskC3 =
      (∑ p ∈ (Finset.range (2 - 1) ×ˢ Finset.range 1).filter
          (fun p => exMaskC3 p.1 p.2 ≠ 0),
        ∑ a ∈ Finset.range 1, tdError 1 exQC exR exD exTM p.1 p.2 a ^ 2)
      / (((Finset.range 2 ×ˢ Finset.range 1).filter
          (fun p => exMaskC3 p.1 p.2 ≠ 0)).card : ℚ) := by
  have h : ∀ t b, exMaskC3 t b = 0 ∨ exMaskC3 t b = 1 := by
    intro t b
    unfold exMaskC3
    split
    · exact Or.inr rfl
    · exact Or.inl rfl
  exact ⟨h, rec_loss_masked 2 1 1 1 exQC exR exD exTM exMaskC3 h⟩

/-- C5: the replay table's rate limiter blocks sampling below
`min_replay_size` in both configurations; with `samples_per_insert`
present it is a `SampleToInsertRatio` limiter whose error buffer is
`0.1 * samples_per_insert * min_replay_size`; with it absent it is a
pure `MinSize` limiter whose admission depends only on the table size. -/
theorem maddpg_rate_limiter_spec (cfg : MADDPGConfig) (spi : ℚ)
    (size ins smp : ℕ)
    (hspi : cfg.samplesPerInsert = some spi)
    (hsize : size < cfg.minReplaySize) :
    ((makeReplayTables cfg).rateLimiter =
      RateLimiterSpec.sampleToInsertRatio cfg.minReplaySize spi
        ((1 / 10 : ℚ) * spi * (cfg.minReplaySize : ℚ))) ∧
    (canSample (makeReplayTables cfg).rateLimiter size ins smp = false) ∧
    (∀ cfg2 : MADDPGConfig, cfg2.samplesPerInsert = none →
      (makeReplayTables cfg2).rateLimiter =
          RateLimiterSpec.minSize cfg2.minReplaySize ∧
      ∀ sz i2 s2, canSample (makeReplayTables cfg2).rateLimiter sz i2 s2 =
        decide (cfg2.minReplaySize ≤ sz)) := by
  have hlim : (makeReplayTables cfg).rateLimiter =
      RateLimiterSpec.sampleToInsertRatio cfg.minReplaySize spi
        ((cfg.minReplaySize : ℚ) * ((1 / 10 : ℚ) * spi)) := by
    simp [makeReplayTables, hspi]
  refine ⟨?_, ?_, ?_⟩
  · rw [hlim]
    congr 1
    ring
  · rw [hlim]
    simp [canSample, hsize.not_le]
  · intro cfg2 h2
    refine ⟨by simp [makeReplayTables, h2], ?_⟩
    intro sz i2 s2
    simp [makeReplayTables, canSample, h2]

/-- C5 witness: a configuration with `samples_per_insert = 2` and
`min_replay_size = 4`, probed at table size 3. -/
theorem maddpg_rate_limiter_spec_witness :
    (MADDPGConfig.mk 4 10 (some 2)).samplesPerInsert = some 2 ∧
    3 < (MADDPGConfig.mk 4 10 (some 2)).minReplaySize ∧
    (((makeReplayTables ⟨4, 10, some 2⟩).rateLimiter =
      RateLimiterSpec.sampleToInsertRatio
        (MADDPGConfig.mk 4 10 (some 2)).minReplaySize 2
        ((1 / 10 : ℚ) * 2 * ((MADDPGConfig.mk 4 10 (some 2)).minReplaySize : ℚ))) ∧
    (canSample (makeReplayTables ⟨4, 10, some 2⟩).rateLimiter 3 0 0 = false) ∧
    (∀ cfg2 : MADDPGConfig, cfg2.samplesPerInsert = none →
      (makeReplayTables cfg2).rateLimiter =
          RateLimiterSpec.minSize cfg2.minReplaySize ∧
      ∀ sz i2 s2, canSample (makeReplayTables cfg2).rateLimiter sz i2 s2 =
        decide (cfg2.minReplaySize ≤ sz))) :=
  ⟨rfl, by decide,
    maddpg_rate_limiter_spec ⟨4, 10, some 2⟩ 2 3 0 0 rfl (by decide)⟩

/-- C9: `make_replay_tables` builds a table with a uniform sampler, a
FIFO remover and `max_size = max_replay_size`; under FIFO insertion the
table never exceeds `max_replay_size` records, and an insert into a full
table evicts the oldest record. -/
theorem maddpg_replay_table_spec (cfg : MADDPGConfig) (rs : List ℕ)
    (x r : ℕ) (xs : List ℕ)
    (hmax : 0 < cfg.maxReplaySize)
    (hfull : cfg.maxReplaySize ≤ (x :: xs).length) :
    (makeReplayTables cfg).sampler = SamplerKind.uniform ∧
    (makeReplayTables cfg).remover = RemoverKind.fifo ∧
    (makeReplayTables cfg).maxSize = cfg.maxReplaySize ∧
    (insertAll cfg.maxReplaySize rs).length ≤ cfg.maxReplaySize ∧
    tableInsert cfg.maxReplaySize (x :: xs) r = xs ++ [r] := by
  refine ⟨rfl, rfl, rfl, ?_, ?_⟩
  · exact insertAll_length_le cfg.maxReplaySize hmax rs [] (by simp)
  · unfold tableInsert
    rw [if_neg (not_lt.mpr hfull)]
    rfl

/-- C9 witness: a table of capacity 2 receiving three inserts, and an
insert into a full two-element table. -/
theorem maddpg_replay_table_spec_witness :
    0 < (MADDPGConfig.mk 1 2 none).maxReplaySize ∧
    (MADDPGConfig.mk 1 2 none).maxReplaySize ≤ ([5, 6] : List ℕ).length ∧
    ((makeReplayTables ⟨1, 2, none⟩).sampler = SamplerKind.uniform ∧
    (makeReplayTables ⟨1, 2, none⟩).remover = RemoverKind.fifo ∧
    (makeReplayTables ⟨1, 2, none⟩).maxSize =
      (MADDPGConfig.mk 1 2 none).maxReplaySize ∧
    (insertAll (MADDPGConfig.mk 1 2 none).maxReplaySize [1, 2, 3]).length ≤
      (MADDPGConfig.mk 1 2 none).maxReplaySize ∧
    tableInsert (MADDPGConfig.mk 1 2 none).maxReplaySize (5 :: [6]) 7 =
      [6] ++ [7]) :=
  ⟨by decide, by decide,
    maddpg_replay_table_spec ⟨1, 2, none⟩ [1, 2, 3] 5 7 [6]
      (by decide) (by decide)⟩

/-- C10: a pulled snapshot entry of an unsupported type is silently
skipped by `_copy`: the loop iteration returns the local variables
unchanged and raises nothing (the `NotImplementedError` is constructed
but never raised), so the whole `_copy` — and hence `get_and_wait` —
behaves as if the entry were absent. -/
theorem variable_client_copy_silent_on_unsupported
    (vars pre suf : List (String × VarValue)) (k tag : String) :
    copyVarsStep vars (k, VarValue.otherV tag) = Except.ok vars ∧
    copyVars vars (pre ++ (k, VarValue.otherV tag) :: suf) =
      copyVars vars (pre ++ suf) ∧
    getAndWait vars ((k, VarValue.otherV tag) :: suf) = getAndWait vars suf := by
  refine ⟨rfl, copyVars_skip_other k tag pre suf vars, ?_⟩
  have h := copyVars_skip_other k tag [] suf vars
  simpa [getAndWait] using h

/-- C1 witness: the target-sync characterisation applied to a concrete
feedforward trainer state at a sync step and to `c1State` at a non-sync
step. -/
theorem target_network_sync_characterisation_witness :
    ([9, 9] : List ℤ).length = ([1, 2] : List ℤ).length ∧
    (((madqnTrainerStep 2 id
        (⟨0, [("net0", [3])], [("net0", [7])]⟩ : DQNState)).numSteps =
      (⟨0, [("net0", [3])], [("net0", [7])]⟩ : DQNState).numSteps + 1) ∧
    ((madqnTrainerStep 2 id
        (⟨0, [("net0", [3])], [("net0", [7])]⟩ : DQNState)).targetQ =
      if (⟨0, [("net0", [3])], [("net0", [7])]⟩ : DQNState).numSteps % 2 = 0
      then copyTargets
        (⟨0, [("net0", [3])], [("net0", [7])]⟩ : DQNState).onlineQ
        (⟨0, [("net0", [3])], [("net0", [7])]⟩ : DQNState).targetQ
      else (⟨0, [("net0", [3])], [("net0", [7])]⟩ : DQNState).targetQ) ∧
    ((recTrainerStep 2 id id c1State).numSteps = c1State.numSteps + 1) ∧
    ((recTrainerStep 2 id id c1State).targetQ =
      if c1State.numSteps % 2 = 0
      then copyTargets c1State.onlineQ c1State.targetQ
      else c1State.targetQ) ∧
    ((recTrainerStep 2 id id c1State).mixing.map MixPair.targetM =
      c1State.mixing.map fun m =>
        if m.isMonotonic then hardCopy m.onlineM m.targetM else m.targetM) ∧
    hardCopy [1, 2] [9, 9] = [1, 2]) :=
  ⟨by decide,
    target_network_sync_characterisation 2 id id
      ⟨0, [("net0", [3])], [("net0", [7])]⟩ c1State [1, 2] [9, 9] (by decide)⟩

/-- C6 witness: two trainer steps with importance sampling disabled
produce only batch pulls. -/
theorem madqn_no_mutate_without_importance_sampling_witness :
    (MADQNTrainerCfg.mk none
      (some ReplayHandleKind.reverbClient)).importanceSamplingExponent =
        none ∧
    (madqnRunEffects ⟨none, some ReplayHandleKind.reverbClient⟩
        [[(1, 2)], []] =
      List.replicate ([[(1, 2)], []] : List (List (ℕ × ℚ))).length
        TrainerEffect.sampleBatch ∧
    ∀ upd, TrainerEffect.mutatePriorities upd ∉
      madqnRunEffects ⟨none, some ReplayHandleKind.reverbClient⟩
        [[(1, 2)], []]) :=
  ⟨rfl,
    madqn_no_mutate_without_importance_sampling
      ⟨none, some ReplayHandleKind.reverbClient⟩ [[(1, 2)], []] rfl⟩
